import Mathlib

/-!
Verification development for `Projects/project5-iac-cloud-infra/azureIaCplan.py`,
a command-line wrapper that sequences calls to terraform (merge variable files,
configure a provider mirror, run plan / apply / destroy).

The script is embedded shallowly:
  * Python string helpers (`str.strip`, `str.lower`, `str.split('=', 1)`,
    substring test) are modelled on `List Char` / `String`.
  * The process environment is an association list (most recent binding first).
  * External effects are recorded as an explicit event trace; the outside world
    (subprocess exit codes, the credential file, the merged tfvars JSON, the
    operator's answer to the destroy prompt) is an oracle structure `World`.
  * Each source function becomes either a pure Lean function or a list of
    abstract workflow steps; a single interpreter `execSteps` gives the steps
    the semantics of the source (`run_command` exits the process with the
    subprocess's return code on non-zero exit; the destroy confirmation either
    continues or exits with status 0).
Paths are modelled POSIX-style (`os.getcwd()` is the `World.cwd` field);
`os.path.relpath` is modelled for already-normalized absolute paths, which is
the only way the script uses it.  Only the prints that the claims refer to are
recorded as `info` events.
-/

namespace AzureIaC

/-! ### Python string primitives -/

/-- Whitespace characters recognised by Python `str.strip()` (ASCII range). -/
def pyIsSpace (c : Char) : Bool :=
  c == ' ' || c == '\t' || c == '\n' || c == '\r' || c == Char.ofNat 11 || c == Char.ofNat 12

/-- Python `str.strip()` (no argument): drop whitespace from both ends. -/
def py_strip (s : String) : String :=
  (((s.data.dropWhile pyIsSpace).reverse.dropWhile pyIsSpace).reverse).asString

/-- Python `str.strip(c)` for a single character `c`. -/
def py_strip_char (c : Char) (s : String) : String :=
  (((s.data.dropWhile (· == c)).reverse.dropWhile (· == c)).reverse).asString

/-- Python `str.lower()` (the script only meets ASCII input). -/
def py_lower (s : String) : String := (s.data.map Char.toLower).asString

/-- Python `s.startswith(pre)` / Lean `String.startsWith`, as a structural
character-list prefix test (kernel-reducible). -/
def strStartsWith (s pre : String) : Bool := List.isPrefixOf pre.data s.data

/-- Drop the first `n` characters (kernel-reducible `String.drop`). -/
def strDrop (s : String) (n : Nat) : String := (s.data.drop n).asString

/-- Python `str.split(sep, 1)` when `sep` occurs: the parts before and after
the first occurrence. -/
def splitFirst (sep : Char) : List Char → Option (List Char × List Char)
  | [] => none
  | c :: rest =>
      if c = sep then some ([], rest)
      else
        match splitFirst sep rest with
        | some (a, b) => some (c :: a, b)
        | none => none

/-- Python substring test `pat in s`, on character lists. -/
def listHasSub (pat : List Char) : List Char → Bool
  | [] => pat.isEmpty
  | c :: rest => List.isPrefixOf pat (c :: rest) || listHasSub pat rest

/-- Python substring test `pat in s` on strings. -/
def hasSub (pat s : String) : Bool := listHasSub pat.data s.data

/-! ### Process environment (`os.environ`) -/

/-- Assignment `os.environ[key] = value`: the new binding shadows any previous one. -/
def setEnv (e : List (String × String)) (k v : String) : List (String × String) :=
  (k, v) :: e

/-- Reading a key: the most recent binding wins. -/
def lookupEnv (e : List (String × String)) (k : String) : Option String :=
  (e.find? (fun p => p.1 == k)).map (fun p => p.2)

/-! ### Paths -/

/-- Source `abs_path` (line 13): join with the project root unless absolute. -/
def abs_path (root p : String) : String :=
  if strStartsWith p "/" then p else root ++ "/" ++ p

/-- Split a character list at every occurrence of `sep` (the semantics of
`str.split(sep)` for a one-character separator). -/
def splitOnChar (sep : Char) : List Char → List (List Char)
  | [] => [[]]
  | c :: rest =>
      if c = sep then [] :: splitOnChar sep rest
      else
        match splitOnChar sep rest with
        | [] => [[c]]
        | g :: gs => (c :: g) :: gs

/-- The non-empty `/`-separated segments of a path
(`[x for x in p.split(sep) if x]` in `posixpath.relpath`). -/
def pathSegments (p : String) : List String :=
  ((splitOnChar '/' p.data).map List.asString).filter (fun x => x ≠ "")

/-- Length of the common prefix of two segment lists (`posixpath.relpath`). -/
def commonPrefixLen : List String → List String → Nat
  | a :: as, b :: bs => if a = b then 1 + commonPrefixLen as bs else 0
  | _, _ => 0

/-- Join segments with `/`. -/
def joinSlash : List String → String
  | [] => ""
  | [x] => x
  | x :: xs => x ++ "/" ++ joinSlash xs

/-- Model of `os.path.relpath(path, start)` for normalized absolute POSIX paths. -/
def relpath (path start : String) : String :=
  let pl := pathSegments path
  let sl := pathSegments start
  let i := commonPrefixLen pl sl
  let rel := List.replicate (sl.length - i) ".." ++ pl.drop i
  if rel.isEmpty then "." else joinSlash rel

/-! ### Observable events -/

/-- One observable external effect of the script.  `exec shell cmd cwd` is a
`subprocess.run(cmd, shell=shell, cwd=cwd, ...)` call (the source's
`run_command` always passes `shell=True`); `fileWrite` is an `open(..., 'w')`
write; `credsLoad` marks a call of `load_azure_env`; `envSet` one
`os.environ[key] = value` assignment; `prompt` the blocking `input(...)` of the
destroy confirmation; `info` a print the claims refer to. -/
inductive Ev where
  | exec (shell : Bool) (cmd : String) (cwd : Option String)
  | fileWrite (path content : String)
  | credsLoad
  | envSet (key value : String)
  | prompt (msg : String)
  | info (msg : String)
deriving DecidableEq

/-! ### `load_azure_env` (source lines 63-76) -/

/-- The hard-coded default credential-file path of the source. -/
def azure_env_default_path : String := "C:\\Users\\SUBRATA\\.azure_env"

/-- One iteration of the loop body of `load_azure_env`: strip the line, skip
blanks, comments and lines without `=`, split at the first `=`, strip the key,
strip the value and its surrounding quotes. -/
def parse_env_line (line : String) : Option (String × String) :=
  let l := py_strip line
  if l ≠ "" && !strStartsWith l "#" && l.data.contains '=' then
    match splitFirst '=' l.data with
    | some (k, v) =>
        some (py_strip k.asString, py_strip_char '\x27' (py_strip_char '"' (py_strip v.asString)))
    | none => none
  else none

/-- The informational notice printed when the credential file is absent. -/
def missing_env_msg : String :=
  "Info: Azure environment file not found at " ++ azure_env_default_path ++
    ". Assuming \x27az login\x27 or managed identity."

/-- Source `load_azure_env`: when the file exists, every parsed `KEY=VALUE` pair is
assigned into the environment unconditionally (`os.environ[key] = value`);
when it does not, an informational notice is printed and nothing changes.
Returns the updated environment and the emitted events. -/
def load_azure_env (ex : Bool) (lines : List String) (env : List (String × String)) :
    List (String × String) × List Ev :=
  if ex then
    ((lines.filterMap parse_env_line).foldl (fun e kv => setEnv e kv.1 kv.2) env,
     Ev.credsLoad :: (lines.filterMap parse_env_line).map (fun kv => Ev.envSet kv.1 kv.2))
  else
    (env, [Ev.credsLoad, Ev.info missing_env_msg])

/-! ### `setup_terraform_provider_mirror` (source lines 52-61) -/

def PRECHECK_PLAN : String := "precheck.tfplan"
def PRECHECK_JSON : String := "precheck.json"

/-- Path `abs_path("terraform-platform/.terraform.d/plugins")` with each backslash
character replaced by a forward slash (`.replace('\\', '/')` for the
one-character pattern is a character map). -/
def provider_cache_path (root : String) : String :=
  ((abs_path root "terraform-platform/.terraform.d/plugins").data.map
    (fun c => if c = '\\' then '/' else c)).asString

/-- The fixed output path `abs_path("terraform-platform/.terraformrc")`. -/
def terraformrc_path (root : String) : String :=
  abs_path root "terraform-platform/.terraformrc"

/-- The `.terraformrc` content written by the source (an HCL
`provider_installation` block with a filesystem mirror and `direct = []`). -/
def terraformrc_content (root : String) : String :=
  "provider_installation \x7b\n  filesystem_mirror \x7b\n    path = \"" ++
    provider_cache_path root ++ "\"\n  \x7d\n  direct = []\n\x7d"

/-- Source `setup_terraform_provider_mirror(comp_dir)`: returns the (path, content)
pair it writes.  The source never reads its `comp_dir` parameter. -/
def setup_terraform_provider_mirror (root comp_dir : String) : String × String :=
  (terraformrc_path root, terraformrc_content root)

/-- A file system as a map from path to content; `fs_write` is one
`open(path, 'w'); f.write(content)`. -/
def fs_write (fs : String → Option String) (p c : String) : String → Option String :=
  fun q => if q = p then some c else fs q

/-! ### Argument parsing (source lines 109-123) -/

/-- The parsed command line: `action` (positional, choices plan/apply/destroy)
and the optional `--app`, `--cloud`, `--env` with their argparse defaults. -/
structure Args where
  action : String
  app : String
  cloud : String
  env : String
deriving DecidableEq

def initArgs : Args := ⟨"", "ovr-app-infra", "azure", "dev"⟩

def setOpt (a : Args) (name v : String) : Args :=
  if name = "--app" then { a with app := v }
  else if name = "--cloud" then { a with cloud := v }
  else if name = "--env" then { a with env := v }
  else a

/-- Outcome of `parser.parse_args()`: a parsed argument set, the
auto-registered `-h`/`--help` action (print help, exit 0), or a parse error
(print usage, exit 2). -/
inductive ParseResult where
  | ok (a : Args)
  | help
  | err
deriving DecidableEq

/-- The argparse contract for this parser: one required positional
constrained to plan/apply/destroy, three value-taking long options (given
either as two tokens or as `--opt=value`), and the auto-registered
`-h`/`--help` action, which fires as soon as it is reached and wins over
deferred errors.  Mirroring argparse: a value token starting with `-`, a
dangling option and an invalid positional choice are immediate errors;
an unrecognized option (such as `--yes`) and a surplus positional are
deferred — parsing continues (so a later `-h` still prints help) and only at
the end do collected extras, like a missing required positional, become an
error.  The fourth argument is the option name still waiting for its value;
the fifth records deferred extras. -/
def parse_tokens : List String → Args → Bool → Option String → Bool → ParseResult
  | [], _, _, some _, _ => ParseResult.err
  | [], a, seen, none, ex =>
      if ex then ParseResult.err
      else if seen then ParseResult.ok a
      else ParseResult.err
  | t :: rest, a, seen, some opt, ex =>
      if strStartsWith t "-" then ParseResult.err
      else parse_tokens rest (setOpt a opt t) seen none ex
  | t :: rest, a, seen, none, ex =>
      if t == "-h" || t == "--help" then ParseResult.help
      else if t == "--app" || t == "--cloud" || t == "--env" then
        parse_tokens rest a seen (some t) ex
      else if strStartsWith t "--app=" then
        parse_tokens rest { a with app := strDrop t 6 } seen none ex
      else if strStartsWith t "--cloud=" then
        parse_tokens rest { a with cloud := strDrop t 8 } seen none ex
      else if strStartsWith t "--env=" then
        parse_tokens rest { a with env := strDrop t 6 } seen none ex
      else if strStartsWith t "-" then parse_tokens rest a seen none true
      else if seen then parse_tokens rest a seen none true
      else if t == "plan" || t == "apply" || t == "destroy" then
        parse_tokens rest { a with action := t } true none ex
      else ParseResult.err

/-- Model of `parser.parse_args()` on the argument vector after the program name. -/
def parse_args (argv : List String) : ParseResult :=
  parse_tokens argv initArgs false none false

/-! ### Derived paths and command strings (source lines 128-138, 41-50, 78-106) -/

def vars_dir (root : String) (a : Args) : String :=
  abs_path root (a.app ++ "/" ++ a.cloud ++ "/" ++ a.env ++ "/vars")

def json_path (root : String) : String := abs_path root "all.tfvars.json"

def composition_dir (root : String) (a : Args) : String :=
  abs_path root ("terraform-platform/" ++ a.cloud ++ "/infra-stack")

def yaml2tfvars_script (root : String) (a : Args) : String :=
  abs_path root ("terraform-platform/" ++ a.cloud ++ "/tools/yaml2tfvars.py")

def backend_config_path (root : String) (a : Args) : String :=
  abs_path root (a.app ++ "/" ++ a.cloud ++ "/" ++ a.env ++ "/backend.tf")

/-- The command built by `merge_yaml_to_json` (grouped so that the literal
`"python "` is the outer left factor). -/
def merge_cmd (root : String) (a : Args) : String :=
  "python " ++ (yaml2tfvars_script root a ++ (" " ++ (vars_dir root a ++ (" " ++ json_path root))))

/-- Value `os.path.relpath(json_path, composition_dir)`. -/
def relative_json_path (root : String) (a : Args) : String :=
  relpath (json_path root) (composition_dir root a)

def init_no_backend_cmd : String := "terraform init -backend=false"

def validate_cmd : String := "terraform validate"

/-- The plan command of `terraform_workflow` (source lines 90-97): the
`admin_public_key` value is interpolated into the command string when the
composition directory mentions `vm-stack` and the merged variables carry a
non-empty `admin_public_key`. -/
def plan_cmd (tfvarsJson compDir : String) (allVars : List (String × String)) : String :=
  "terraform plan -var-file=" ++
    (tfvarsJson ++
      ((match lookupEnv allVars "admin_public_key" with
        | some v => if hasSub "vm-stack" compDir && v != "" then
                      " -var=\"admin_public_key=" ++ (v ++ "\"")
                    else ""
        | none => "") ++ (" -out=" ++ PRECHECK_PLAN)))

def show_cmd : String := "terraform show -json " ++ PRECHECK_PLAN ++ " > " ++ PRECHECK_JSON

def init_backend_cmd (root : String) (a : Args) : String :=
  "terraform init -backend-config=" ++ backend_config_path root a

def apply_cmd : String := "terraform apply -auto-approve " ++ PRECHECK_PLAN

def destroy_cmd (tfvarsJson : String) : String :=
  "terraform destroy -var-file=" ++ (tfvarsJson ++ " -auto-approve")

/-- Test `response.strip().lower() in ['yes', 'y']` (source line 204). -/
def is_affirmative (response : String) : Bool :=
  py_lower (py_strip response) == "yes" || py_lower (py_strip response) == "y"

/-- The text of the blocking confirmation prompt. -/
def confirm_prompt_msg : String := "  Type \x27yes\x27 or \x27y\x27 to confirm: "

/-! ### The outside world and the workflow interpreter -/

/-- Everything outside the script that its run depends on: the working
directory (`os.getcwd()`), the initial process environment, the exit code each
external command returns, the credential file, the merged tfvars JSON the
external merge script produces, and the operator's answer to the destroy
prompt. -/
structure World where
  cwd : String
  initEnv : List (String × String)
  exitCode : String → Option String → Nat
  envFileExists : Bool
  envFileLines : List String
  tfvarsJsonExists : Bool
  tfvarsVars : List (String × String)
  response : String

/-- Merged `all_vars` as read back in `run_plan_steps` (source lines 154-157). -/
def all_vars (w : World) : List (String × String) :=
  if w.tfvarsJsonExists then w.tfvarsVars else []

/-- One unit of work of the script: an external command (always executed by
`run_command`, hence through the shell), the provider-mirror file write, a
call of `load_azure_env`, or the blocking destroy confirmation. -/
inductive Step where
  | cmd (c : String) (cwd : Option String)
  | mirror (compDir : String)
  | loadenv
  | confirmDestroy (envName : String)
deriving DecidableEq

/-- The steps of `terraform_workflow` (source lines 78-106): load credentials,
`terraform init -backend=false`, then the action-specific tail. -/
def terraform_workflow_steps (compDir tfvarsJson : String)
    (allVars : List (String × String)) (action : String) : List Step :=
  Step.loadenv ::
  Step.cmd init_no_backend_cmd (some compDir) ::
  (if action = "plan" then
     [Step.cmd validate_cmd (some compDir),
      Step.cmd (plan_cmd tfvarsJson compDir allVars) (some compDir),
      Step.cmd show_cmd (some compDir)]
   else if action = "destroy" then
     [Step.cmd (destroy_cmd tfvarsJson) (some compDir)]
   else [])

/-- The steps of `run_plan_steps` (source lines 141-165): merge the YAML
fragments, write the provider mirror file, then the plan workflow. -/
def run_plan_steps (w : World) (a : Args) : List Step :=
  Step.cmd (merge_cmd w.cwd a) none ::
  Step.mirror (composition_dir w.cwd a) ::
  terraform_workflow_steps (composition_dir w.cwd a) (relative_json_path w.cwd a)
    (all_vars w) "plan"

/-- The steps of `main`'s action dispatch (source lines 167-212). -/
def main_steps (w : World) (a : Args) : List Step :=
  if a.action = "plan" then run_plan_steps w a
  else if a.action = "apply" then
    run_plan_steps w a ++
      [Step.cmd (init_backend_cmd w.cwd a) (some (composition_dir w.cwd a)),
       Step.cmd apply_cmd (some (composition_dir w.cwd a))]
  else if a.action = "destroy" then
    [Step.cmd (merge_cmd w.cwd a) none,
     Step.mirror (composition_dir w.cwd a),
     Step.cmd (init_backend_cmd w.cwd a) (some (composition_dir w.cwd a)),
     Step.confirmDestroy a.env] ++
    terraform_workflow_steps (composition_dir w.cwd a) (relative_json_path w.cwd a) [] "destroy"
  else []

/-- Result of a run: the event trace, the final process environment, and
`some code` when the process called `sys.exit(code)` (`none` when it ran to
the end of the step list, which is also a status-0 termination). -/
structure RunOut where
  trace : List Ev
  env : List (String × String)
  exit : Option Nat
deriving DecidableEq

/-- The interpreter giving the steps the semantics of the source:
`run_command` exits the process with the subprocess's return code on non-zero
exit (source lines 35-39); the destroy confirmation continues on an
affirmative answer and prints a notice and exits with status 0 otherwise
(source lines 202-210). -/
def execSteps (w : World) : List (String × String) → List Step → RunOut
  | env, [] => ⟨[], env, none⟩
  | env, Step.cmd c d :: rest =>
      let code := w.exitCode c d
      if code = 0 then
        let r := execSteps w env rest
        ⟨Ev.exec true c d :: r.trace, r.env, r.exit⟩
      else ⟨[Ev.exec true c d], env, some code⟩
  | env, Step.mirror compDir :: rest =>
      let pc := setup_terraform_provider_mirror w.cwd compDir
      let r := execSteps w env rest
      ⟨Ev.fileWrite pc.1 pc.2 :: r.trace, r.env, r.exit⟩
  | env, Step.loadenv :: rest =>
      let le := load_azure_env w.envFileExists w.envFileLines env
      let r := execSteps w le.1 rest
      ⟨le.2 ++ r.trace, r.env, r.exit⟩
  | env, Step.confirmDestroy _ :: rest =>
      if is_affirmative w.response then
        let r := execSteps w env rest
        ⟨Ev.prompt confirm_prompt_msg :: r.trace, r.env, r.exit⟩
      else ⟨[Ev.prompt confirm_prompt_msg, Ev.info "Destroy action canceled."], env, some 0⟩

/-- Source `main`: print help and exit 0 on an empty argument vector (source lines
119-121); print help and exit 0 when argparse's `-h`/`--help` action fires;
exit 2 on an argparse rejection; otherwise run the steps of the chosen
action. -/
def main_run (w : World) (argv : List String) : RunOut :=
  if argv = [] then ⟨[Ev.info "help"], w.initEnv, some 0⟩
  else
    match parse_args argv with
    | ParseResult.help => ⟨[Ev.info "help"], w.initEnv, some 0⟩
    | ParseResult.err => ⟨[Ev.info "usage error"], w.initEnv, some 2⟩
    | ParseResult.ok a => execSteps w w.initEnv (main_steps w a)

/-- Whether an event is a structural milestone: a command execution, a file
write or a credential load (prints, prompts and individual environment
assignments are not). -/
def isKeyEv : Ev → Bool
  | Ev.exec _ _ _ => true
  | Ev.fileWrite _ _ => true
  | Ev.credsLoad => true
  | _ => false

/-- The structural milestones of a trace, in order. -/
def keyEvents (t : List Ev) : List Ev := t.filter isKeyEv

/-! ### Helper lemmas: distinguishing the command strings -/

theorem data_get_append (p x : String) (i : Nat) (h : i < p.data.length) :
    (p ++ x).data[i]? = p.data[i]? := by
  rw [String.data_append]
  exact List.getElem?_append_left h

theorem str_ne_at {s t : String} {i : Nat} {c c' : Char}
    (hs : s.data[i]? = some c) (ht : t.data[i]? = some c') (hne : c ≠ c') :
    s ≠ t := by
  intro he
  subst he
  rw [hs] at ht
  exact hne (Option.some.inj ht)

theorem merge_cmd_head (root : String) (a : Args) : (merge_cmd root a).data[0]? = some 'p' := by
  unfold merge_cmd
  rw [data_get_append "python " _ 0 (by decide)]
  decide

theorem destroy_cmd_head (t : String) : (destroy_cmd t).data[0]? = some 't' := by
  unfold destroy_cmd
  rw [data_get_append "terraform destroy -var-file=" _ 0 (by decide)]
  decide

theorem destroy_cmd_at10 (t : String) : (destroy_cmd t).data[10]? = some 'd' := by
  unfold destroy_cmd
  rw [data_get_append "terraform destroy -var-file=" _ 10 (by decide)]
  decide

theorem plan_cmd_at10 (tf comp : String) (l : List (String × String)) :
    (plan_cmd tf comp l).data[10]? = some 'p' := by
  unfold plan_cmd
  rw [data_get_append "terraform plan -var-file=" _ 10 (by decide)]
  decide

theorem init_backend_cmd_at10 (root : String) (a : Args) :
    (init_backend_cmd root a).data[10]? = some 'i' := by
  unfold init_backend_cmd
  rw [data_get_append "terraform init -backend-config=" _ 10 (by decide)]
  decide

theorem apply_cmd_at10 : apply_cmd.data[10]? = some 'a' := by decide

theorem apply_cmd_head : apply_cmd.data[0]? = some 't' := by decide

theorem init_no_backend_at10 : init_no_backend_cmd.data[10]? = some 'i' := by decide

theorem validate_cmd_at10 : validate_cmd.data[10]? = some 'v' := by decide

theorem show_cmd_at10 : show_cmd.data[10]? = some 's' := by decide

theorem destroy_ne_merge (t root : String) (a : Args) : destroy_cmd t ≠ merge_cmd root a :=
  str_ne_at (destroy_cmd_head t) (merge_cmd_head root a) (by decide)

theorem destroy_ne_initb (t root : String) (a : Args) : destroy_cmd t ≠ init_backend_cmd root a :=
  str_ne_at (destroy_cmd_at10 t) (init_backend_cmd_at10 root a) (by decide)

theorem destroy_ne_initnb (t : String) : destroy_cmd t ≠ init_no_backend_cmd :=
  str_ne_at (destroy_cmd_at10 t) init_no_backend_at10 (by decide)

theorem apply_ne_merge (root : String) (a : Args) : apply_cmd ≠ merge_cmd root a :=
  str_ne_at apply_cmd_head (merge_cmd_head root a) (by decide)

theorem apply_ne_initnb : apply_cmd ≠ init_no_backend_cmd :=
  str_ne_at apply_cmd_at10 init_no_backend_at10 (by decide)

theorem apply_ne_validate : apply_cmd ≠ validate_cmd :=
  str_ne_at apply_cmd_at10 validate_cmd_at10 (by decide)

theorem apply_ne_plan (tf comp : String) (l : List (String × String)) :
    apply_cmd ≠ plan_cmd tf comp l :=
  str_ne_at apply_cmd_at10 (plan_cmd_at10 tf comp l) (by decide)

theorem apply_ne_show : apply_cmd ≠ show_cmd :=
  str_ne_at apply_cmd_at10 show_cmd_at10 (by decide)

theorem apply_ne_initb (root : String) (a : Args) : apply_cmd ≠ init_backend_cmd root a :=
  str_ne_at apply_cmd_at10 (init_backend_cmd_at10 root a) (by decide)

/-! ### Helper lemmas: the shape of `load_azure_env` events -/

theorem load_no_exec (ex : Bool) (lines : List String) (env : List (String × String))
    (b : Bool) (c : String) (d : Option String) :
    Ev.exec b c d ∉ (load_azure_env ex lines env).2 := by
  cases ex <;> simp [load_azure_env]

theorem filter_map_envSet (l : List (String × String)) :
    (l.map (fun kv => Ev.envSet kv.1 kv.2)).filter isKeyEv = [] := by
  induction l with
  | nil => rfl
  | cons kv l ih => simpa [isKeyEv] using ih

theorem keyEvents_load (ex : Bool) (lines : List String) (env : List (String × String)) :
    keyEvents (load_azure_env ex lines env).2 = [Ev.credsLoad] := by
  cases ex <;> simp [load_azure_env, keyEvents, isKeyEv, filter_map_envSet]

theorem count_creds_map_envSet (l : List (String × String)) :
    (l.map (fun kv => Ev.envSet kv.1 kv.2)).count Ev.credsLoad = 0 := by
  induction l with
  | nil => rfl
  | cons kv l ih => simpa [List.count_cons] using ih

theorem count_creds_load (ex : Bool) (lines : List String) (env : List (String × String)) :
    (load_azure_env ex lines env).2.count Ev.credsLoad = 1 := by
  cases ex <;>
    simp [load_azure_env, List.count_cons, count_creds_map_envSet]

/-! ### Helper lemmas: the interpreter halts at the first failing command -/

theorem execSteps_halt (w : World) (cmd : String) (cwd : Option String)
    (hne : w.exitCode cmd cwd ≠ 0) :
    ∀ (steps : List Step) (env : List (String × String)),
      Ev.exec true cmd cwd ∈ (execSteps w env steps).trace →
      (execSteps w env steps).exit = some (w.exitCode cmd cwd) ∧
      ∃ t, (execSteps w env steps).trace = t ++ [Ev.exec true cmd cwd] := by
  intro steps
  induction steps with
  | nil => intro env h; simp [execSteps] at h
  | cons s rest ih =>
    intro env h
    cases s with
    | cmd c d =>
      by_cases h0 : w.exitCode c d = 0
      · simp only [execSteps, h0, if_pos] at h ⊢
        rcases List.mem_cons.mp h with he | hm
        · rw [Ev.exec.injEq] at he
          obtain ⟨-, hc, hd⟩ := he
          subst hc; subst hd
          exact absurd h0 hne
        · obtain ⟨h1, t, h2⟩ := ih env hm
          refine ⟨h1, Ev.exec true c d :: t, ?_⟩
          simp [h2]
      · simp only [execSteps] at h ⊢
        rw [if_neg h0] at h ⊢
        simp only [List.mem_singleton] at h
        rw [Ev.exec.injEq] at h
        obtain ⟨-, hc, hd⟩ := h
        subst hc; subst hd
        exact ⟨rfl, [], rfl⟩
    | mirror compDir =>
      simp only [execSteps] at h ⊢
      rcases List.mem_cons.mp h with he | hm
      · simp at he
      · obtain ⟨h1, t, h2⟩ := ih env hm
        refine ⟨h1, Ev.fileWrite (setup_terraform_provider_mirror w.cwd compDir).1
          (setup_terraform_provider_mirror w.cwd compDir).2 :: t, ?_⟩
        simp [h2]
    | loadenv =>
      simp only [execSteps] at h ⊢
      rcases List.mem_append.mp h with he | hm
      · exact absurd he (load_no_exec _ _ _ _ _ _)
      · obtain ⟨h1, t, h2⟩ := ih _ hm
        refine ⟨h1, (load_azure_env w.envFileExists w.envFileLines env).2 ++ t, ?_⟩
        simp [h2]
    | confirmDestroy envName =>
      by_cases haff : is_affirmative w.response = true
      · simp only [execSteps, haff, if_pos] at h ⊢
        rcases List.mem_cons.mp h with he | hm
        · simp at he
        · obtain ⟨h1, t, h2⟩ := ih env hm
          refine ⟨h1, Ev.prompt confirm_prompt_msg :: t, ?_⟩
          simp [h2]
      · simp only [execSteps] at h ⊢
        rw [if_neg haff] at h ⊢
        simp at h

theorem execSteps_exec_inv (w : World) (b : Bool) (cmd : String) (cwd : Option String) :
    ∀ (steps : List Step) (env : List (String × String)),
      Ev.exec b cmd cwd ∈ (execSteps w env steps).trace →
      b = true ∧ Step.cmd cmd cwd ∈ steps := by
  intro steps
  induction steps with
  | nil => intro env h; simp [execSteps] at h
  | cons s rest ih =>
    intro env h
    cases s with
    | cmd c d =>
      by_cases h0 : w.exitCode c d = 0
      · simp only [execSteps, h0, if_pos] at h
        rcases List.mem_cons.mp h with he | hm
        · rw [Ev.exec.injEq] at he
          obtain ⟨hb, hc, hd⟩ := he
          subst hb; subst hc; subst hd
          exact ⟨rfl, List.mem_cons_self _ _⟩
        · obtain ⟨hb, hs⟩ := ih env hm
          exact ⟨hb, List.mem_cons_of_mem _ hs⟩
      · simp only [execSteps] at h
        rw [if_neg h0] at h
        simp only [List.mem_singleton] at h
        rw [Ev.exec.injEq] at h
        obtain ⟨hb, hc, hd⟩ := h
        subst hb; subst hc; subst hd
        exact ⟨rfl, List.mem_cons_self _ _⟩
    | mirror compDir =>
      simp only [execSteps] at h
      rcases List.mem_cons.mp h with he | hm
      · simp at he
      · obtain ⟨hb, hs⟩ := ih env hm
        exact ⟨hb, List.mem_cons_of_mem _ hs⟩
    | loadenv =>
      simp only [execSteps] at h
      rcases List.mem_append.mp h with he | hm
      · exact absurd he (load_no_exec _ _ _ _ _ _)
      · obtain ⟨hb, hs⟩ := ih _ hm
        exact ⟨hb, List.mem_cons_of_mem _ hs⟩
    | confirmDestroy envName =>
      by_cases haff : is_affirmative w.response = true
      · simp only [execSteps, haff, if_pos] at h
        rcases List.mem_cons.mp h with he | hm
        · simp at he
        · obtain ⟨hb, hs⟩ := ih env hm
          exact ⟨hb, List.mem_cons_of_mem _ hs⟩
      · simp only [execSteps] at h
        rw [if_neg haff] at h
        simp at h


/-! ### Claim C6 -/

/-- C6: for every run, if an executed external command exits non-zero, then it
is the last event of the trace — no later step runs — and the process exit
status equals that command's exit code (`run_command`, source lines 35-39). -/
theorem step_failure_halts (w : World) (argv : List String) (cmd : String) (cwd : Option String)
    (hmem : Ev.exec true cmd cwd ∈ (main_run w argv).trace)
    (hne : w.exitCode cmd cwd ≠ 0) :
    (main_run w argv).exit = some (w.exitCode cmd cwd) ∧
    ∃ t, (main_run w argv).trace = t ++ [Ev.exec true cmd cwd] := by
  by_cases hargv : argv = []
  · rw [hargv] at hmem
    simp [main_run] at hmem
  · cases hp : parse_args argv with
    | help =>
      have hmr : main_run w argv = ⟨[Ev.info "help"], w.initEnv, some 0⟩ := by
        unfold main_run
        rw [if_neg hargv, hp]
      rw [hmr] at hmem
      simp at hmem
    | err =>
      have hmr : main_run w argv = ⟨[Ev.info "usage error"], w.initEnv, some 2⟩ := by
        unfold main_run
        rw [if_neg hargv, hp]
      rw [hmr] at hmem
      simp at hmem
    | ok a =>
      have hmr : main_run w argv = execSteps w w.initEnv (main_steps w a) := by
        unfold main_run
        rw [if_neg hargv, hp]
      rw [hmr] at hmem ⊢
      exact execSteps_halt w cmd cwd hne _ _ hmem

/-- A world in which `terraform validate` fails with exit code 7 and every
other command succeeds. -/
def wFail : World :=
  { cwd := "/root", initEnv := [],
    exitCode := fun c _ => if c = validate_cmd then 7 else 0,
    envFileExists := false, envFileLines := [], tfvarsJsonExists := false,
    tfvarsVars := [], response := "" }

def argsPlanDefault : Args := ⟨"plan", "ovr-app-infra", "azure", "dev"⟩

theorem step_failure_halts_witness :
    (main_run wFail ["plan"]).exit =
      some (wFail.exitCode validate_cmd (some (composition_dir "/root" argsPlanDefault))) ∧
    ∃ t, (main_run wFail ["plan"]).trace =
      t ++ [Ev.exec true validate_cmd (some (composition_dir "/root" argsPlanDefault))] :=
  step_failure_halts wFail ["plan"] validate_cmd (some (composition_dir "/root" argsPlanDefault))
    (by decide) (by decide)

/-! ### Claim C10 -/

/-- C10: for a fixed project root, `setup_terraform_provider_mirror` produces
the same (path, content) pair for every composition-directory argument, the
path is the fixed `terraform-platform/.terraformrc` location, and re-running
the write is idempotent on the file system. -/
theorem mirror_independent_idempotent (root d1 d2 : String) (fs : String → Option String) :
    setup_terraform_provider_mirror root d1 = setup_terraform_provider_mirror root d2 ∧
    (setup_terraform_provider_mirror root d1).1 = abs_path root "terraform-platform/.terraformrc" ∧
    fs_write (fs_write fs (setup_terraform_provider_mirror root d1).1
        (setup_terraform_provider_mirror root d1).2)
      (setup_terraform_provider_mirror root d2).1 (setup_terraform_provider_mirror root d2).2 =
    fs_write fs (setup_terraform_provider_mirror root d1).1
      (setup_terraform_provider_mirror root d1).2 := by
  refine ⟨rfl, rfl, ?_⟩
  funext q
  by_cases hq : q = terraformrc_path root
  · simp [setup_terraform_provider_mirror, fs_write, hq]
  · simp [setup_terraform_provider_mirror, fs_write, hq]

/-! ### Claim C8 -/

/-- C8: when the credential file does not exist, `load_azure_env` leaves the
environment unchanged, emits only the informational notice, and the run
continues with the remaining steps unperturbed (same final environment, same
exit) — a missing file is not an error. -/
theorem missing_credential_file_ok (w : World) (env : List (String × String))
    (rest : List Step) (lines : List String) (hex : w.envFileExists = false) :
    (load_azure_env false lines env).1 = env ∧
    (load_azure_env false lines env).2 = [Ev.credsLoad, Ev.info missing_env_msg] ∧
    execSteps w env (Step.loadenv :: rest) =
      ⟨Ev.credsLoad :: Ev.info missing_env_msg :: (execSteps w env rest).trace,
       (execSteps w env rest).env, (execSteps w env rest).exit⟩ := by
  refine ⟨rfl, rfl, ?_⟩
  simp [execSteps, load_azure_env, hex]

theorem missing_credential_file_ok_witness :
    (load_azure_env false [] [("PRESET", "kept")]).1 = [("PRESET", "kept")] ∧
    (load_azure_env false [] [("PRESET", "kept")]).2 =
      [Ev.credsLoad, Ev.info missing_env_msg] ∧
    execSteps wFail [("PRESET", "kept")] [Step.loadenv] =
      ⟨Ev.credsLoad :: Ev.info missing_env_msg ::
        (execSteps wFail [("PRESET", "kept")] []).trace,
       (execSteps wFail [("PRESET", "kept")] []).env,
       (execSteps wFail [("PRESET", "kept")] []).exit⟩ :=
  missing_credential_file_ok wFail [("PRESET", "kept")] [] [] rfl


/-! ### Claim C2 -/

/-- The value of the last assignment the credential file makes to key `k`,
if any line assigns it. -/
def lastAssign (lines : List String) (k : String) : Option String :=
  (((lines.filterMap parse_env_line).filter (fun p => p.1 == k)).map (fun p => p.2)).getLast?

theorem lookup_setEnv (env : List (String × String)) (k' v k : String) :
    lookupEnv (setEnv env k' v) k = if k' == k then some v else lookupEnv env k := by
  by_cases h : k' == k <;> simp [lookupEnv, setEnv, List.find?_cons, h]

theorem foldl_setEnv_lookup (pairs : List (String × String)) :
    ∀ (env : List (String × String)) (k : String),
      lookupEnv (pairs.foldl (fun e kv => setEnv e kv.1 kv.2) env) k =
        match ((pairs.filter (fun p => p.1 == k)).map (fun p => p.2)).getLast? with
        | some v => some v
        | none => lookupEnv env k := by
  induction pairs with
  | nil => intro env k; simp
  | cons p ps ih =>
    intro env k
    rw [List.foldl_cons, ih (setEnv env p.1 p.2) k]
    by_cases hk : p.1 == k
    · have hfc : List.filter (fun q => q.1 == k) (p :: ps) =
          p :: List.filter (fun q => q.1 == k) ps := by
        simp [List.filter_cons, hk]
      rw [hfc, List.map_cons]
      cases hm : (ps.filter (fun q => q.1 == k)).map (fun q => q.2) with
      | nil => simp [hm, lookup_setEnv, hk]
      | cons x m =>
        rw [List.getLast?_cons_cons]
        cases hl : (x :: m).getLast? with
        | none => simp [List.getLast?_eq_none_iff] at hl
        | some v => simp [hl]
    · have hfc : List.filter (fun q => q.1 == k) (p :: ps) =
          List.filter (fun q => q.1 == k) ps := by
        simp [List.filter_cons, hk]
      rw [hfc]
      cases hl : ((ps.filter (fun q => q.1 == k)).map (fun q => q.2)).getLast? with
      | none => simp [hl, lookup_setEnv, hk]
      | some v => simp [hl]

/-- C2 counterexample: a variable set in the environment before the load does
NOT keep its prior value when the credential file assigns the same key — the
loader assigns unconditionally, so the file value wins. -/
theorem env_overwritten_counterexample :
    lookupEnv [("ARM_CLIENT_ID", "preset")] "ARM_CLIENT_ID" = some "preset" ∧
    lookupEnv (load_azure_env true ["ARM_CLIENT_ID=filevalue"] [("ARM_CLIENT_ID", "preset")]).1
        "ARM_CLIENT_ID" = some "filevalue" ∧
    ("filevalue" : String) ≠ "preset" := by
  exact ⟨rfl, by decide, by decide⟩

/-- C2 amended: the loader sets every parsed key unconditionally — after the
load, a key assigned by the credential file holds the file's last value for
it (even when it was set before), and only keys the file does not assign keep
their prior values. -/
theorem load_env_file_wins (lines : List String) (env : List (String × String)) (k : String) :
    lookupEnv (load_azure_env true lines env).1 k =
      match lastAssign lines k with
      | some v => some v
      | none => lookupEnv env k := by
  unfold load_azure_env lastAssign
  simp only [if_pos]
  exact foldl_setEnv_lookup _ env k


/-! ### Claim C7 -/

/-- A world in which every external command succeeds, the credential file is
absent, the merged tfvars JSON is absent and the operator would answer `no`. -/
def wOk : World :=
  { cwd := "/root", initEnv := [], exitCode := fun _ _ => 0,
    envFileExists := false, envFileLines := [], tfvarsJsonExists := false,
    tfvarsVars := [], response := "no" }

/-- C7 counterexample: in a fully successful `plan` run the first step is the
YAML merge, not the credential load — credentials are loaded only third, after
the merge and the provider-mirror write, so the claimed order
(credentials first) is false. -/
theorem plan_creds_not_first_counterexample :
    (main_run wOk ["plan"]).trace.head? =
      some (Ev.exec true (merge_cmd "/root" argsPlanDefault) none) ∧
    (main_run wOk ["plan"]).trace.head? ≠ some Ev.credsLoad ∧
    Ev.credsLoad ∈ (main_run wOk ["plan"]).trace := by
  exact ⟨by decide, by decide, by decide⟩

theorem filter_load (ex : Bool) (lines : List String) (env : List (String × String)) :
    (load_azure_env ex lines env).2.filter isKeyEv = [Ev.credsLoad] :=
  keyEvents_load ex lines env

/-- C7 amended: in every fully successful `plan` run the milestone order is
merge → mirror write → credential load → `terraform init -backend=false` →
`validate` → `plan` → `show`; the credential load happens exactly once per
run and before every terraform invocation (but after the merge and the mirror
write, not first as claimed). -/
theorem plan_step_order (w : World) (argv : List String) (a : Args)
    (hp : parse_args argv = ParseResult.ok a) (ha : a.action = "plan")
    (h0 : ∀ c d, w.exitCode c d = 0) :
    keyEvents (main_run w argv).trace =
      [Ev.exec true (merge_cmd w.cwd a) none,
       Ev.fileWrite (terraformrc_path w.cwd) (terraformrc_content w.cwd),
       Ev.credsLoad,
       Ev.exec true init_no_backend_cmd (some (composition_dir w.cwd a)),
       Ev.exec true validate_cmd (some (composition_dir w.cwd a)),
       Ev.exec true (plan_cmd (relative_json_path w.cwd a) (composition_dir w.cwd a)
         (all_vars w)) (some (composition_dir w.cwd a)),
       Ev.exec true show_cmd (some (composition_dir w.cwd a))] ∧
    (main_run w argv).trace.count Ev.credsLoad = 1 := by
  have hargv : argv ≠ [] := by
    intro he
    rw [he] at hp
    rw [show parse_args [] = ParseResult.err from rfl] at hp
    exact ParseResult.noConfusion hp
  have hmr : main_run w argv = execSteps w w.initEnv (main_steps w a) := by
    unfold main_run
    rw [if_neg hargv, hp]
  rw [hmr]
  simp only [main_steps, run_plan_steps, terraform_workflow_steps, ha, if_pos,
    reduceIte]
  simp [execSteps, h0, setup_terraform_provider_mirror, keyEvents, isKeyEv,
    List.filter_append, filter_load, List.count_cons, List.count_append,
    count_creds_load]

theorem plan_step_order_witness :
    keyEvents (main_run wOk ["plan"]).trace =
      [Ev.exec true (merge_cmd wOk.cwd argsPlanDefault) none,
       Ev.fileWrite (terraformrc_path wOk.cwd) (terraformrc_content wOk.cwd),
       Ev.credsLoad,
       Ev.exec true init_no_backend_cmd (some (composition_dir wOk.cwd argsPlanDefault)),
       Ev.exec true validate_cmd (some (composition_dir wOk.cwd argsPlanDefault)),
       Ev.exec true (plan_cmd (relative_json_path wOk.cwd argsPlanDefault)
         (composition_dir wOk.cwd argsPlanDefault) (all_vars wOk))
         (some (composition_dir wOk.cwd argsPlanDefault)),
       Ev.exec true show_cmd (some (composition_dir wOk.cwd argsPlanDefault))] ∧
    (main_run wOk ["plan"]).trace.count Ev.credsLoad = 1 :=
  plan_step_order wOk ["plan"] argsPlanDefault (by decide) rfl (fun c d => rfl)


/-! ### Claim C9 -/

/-- C9: whenever the destroy confirmation prompt is answered (in a run whose
external commands all succeed), the destroy command executes iff the response,
stripped of surrounding whitespace and lowercased, is `yes` or `y`; any other
response prints the cancellation notice and exits with status 0. -/
theorem destroy_confirmation_gate (w : World) (argv : List String) (a : Args)
    (hp : parse_args argv = ParseResult.ok a) (ha : a.action = "destroy")
    (h0 : ∀ c d, w.exitCode c d = 0) :
    (Ev.exec true (destroy_cmd (relative_json_path w.cwd a))
        (some (composition_dir w.cwd a)) ∈ (main_run w argv).trace ↔
      is_affirmative w.response = true) ∧
    (is_affirmative w.response = false →
      (main_run w argv).exit = some 0 ∧
      Ev.info "Destroy action canceled." ∈ (main_run w argv).trace) := by
  have hargv : argv ≠ [] := by
    intro he
    rw [he] at hp
    rw [show parse_args [] = ParseResult.err from rfl] at hp
    exact ParseResult.noConfusion hp
  have hmr : main_run w argv = execSteps w w.initEnv (main_steps w a) := by
    unfold main_run
    rw [if_neg hargv, hp]
  rw [hmr]
  simp only [main_steps, terraform_workflow_steps, ha, reduceIte]
  cases haff : is_affirmative w.response with
  | true =>
    simp [execSteps, h0, haff, setup_terraform_provider_mirror]
  | false =>
    simp only [execSteps, h0, haff, setup_terraform_provider_mirror, reduceIte,
      Bool.false_eq_true, if_false]
    refine ⟨⟨fun hmem => ?_, fun hc => absurd hc (by simp)⟩, fun _ => ⟨by simp, by simp⟩⟩
    exfalso
    simp only [List.mem_cons] at hmem
    rcases hmem with he | he | he | he | he | he
    · injection he with h1 h2 h3
      exact Option.noConfusion h3
    · exact Ev.noConfusion he
    · injection he with h1 h2 h3
      exact destroy_ne_initb _ _ _ h2
    · exact Ev.noConfusion he
    · exact Ev.noConfusion he
    · simp at he

def argsDestroyDefault : Args := ⟨"destroy", "ovr-app-infra", "azure", "dev"⟩

/-- A fully successful world whose operator answers `" Y "`. -/
def wYes : World :=
  { cwd := "/root", initEnv := [], exitCode := fun _ _ => 0,
    envFileExists := false, envFileLines := [], tfvarsJsonExists := false,
    tfvarsVars := [], response := " Y " }

theorem destroy_confirmation_gate_witness :
    (Ev.exec true (destroy_cmd (relative_json_path wYes.cwd argsDestroyDefault))
        (some (composition_dir wYes.cwd argsDestroyDefault)) ∈
          (main_run wYes ["destroy"]).trace ↔
      is_affirmative wYes.response = true) ∧
    (is_affirmative wYes.response = false →
      (main_run wYes ["destroy"]).exit = some 0 ∧
      Ev.info "Destroy action canceled." ∈ (main_run wYes ["destroy"]).trace) :=
  destroy_confirmation_gate wYes ["destroy"] argsDestroyDefault (by decide) rfl
    (fun c d => rfl)

/-! ### Claim C1 -/

/-- C1 counterexample: the parser registers no `--yes` option, so `--yes` is
collected as an unrecognized extra and `destroy --yes` fails argument parsing
with exit status 2 — the confirmation prompt is not skipped and the destroy
step does not proceed. -/
theorem yes_flag_counterexample :
    parse_args ["destroy", "--yes"] = ParseResult.err ∧
    main_run wOk ["destroy", "--yes"] = ⟨[Ev.info "usage error"], wOk.initEnv, some 2⟩ := by
  exact ⟨by decide, by decide⟩

theorem parse_tokens_extras (toks : List String) :
    ∀ (a : Args) (seen : Bool) (pend : Option String),
      parse_tokens toks a seen pend true = ParseResult.help ∨
      parse_tokens toks a seen pend true = ParseResult.err := by
  induction toks with
  | nil =>
    intro a seen pend
    cases pend with
    | some opt => exact Or.inr rfl
    | none => exact Or.inr rfl
  | cons t rest ih =>
    intro a seen pend
    cases pend with
    | some opt =>
      simp only [parse_tokens]
      split
      · exact Or.inr rfl
      · exact ih _ _ _
    | none =>
      simp only [parse_tokens]
      repeat' split
      all_goals first | exact Or.inl rfl | exact Or.inr rfl | exact ih _ _ _

theorem parse_tokens_yes (toks : List String) :
    ∀ (a : Args) (seen : Bool) (pend : Option String) (ex : Bool), "--yes" ∈ toks →
      parse_tokens toks a seen pend ex = ParseResult.help ∨
      parse_tokens toks a seen pend ex = ParseResult.err := by
  induction toks with
  | nil =>
    intro a seen pend ex h
    simp at h
  | cons t rest ih =>
    intro a seen pend ex h
    rcases List.mem_cons.mp h with ht | ht
    · subst ht
      have hy1 : strStartsWith "--yes" "-" = true := by decide
      have hy2 : ("--yes" == "--app" || "--yes" == "--cloud" || "--yes" == "--env") = false := by
        decide
      have hy3 : strStartsWith "--yes" "--app=" = false := by decide
      have hy4 : strStartsWith "--yes" "--cloud=" = false := by decide
      have hy5 : strStartsWith "--yes" "--env=" = false := by decide
      have hy6 : ("--yes" == "-h" || "--yes" == "--help") = false := by decide
      cases pend with
      | some opt => simp [parse_tokens, hy1]
      | none =>
        simp only [parse_tokens, hy1, hy2, hy3, hy4, hy5, hy6, Bool.false_eq_true,
          if_false, if_true]
        exact parse_tokens_extras rest a seen none
    · cases pend with
      | some opt =>
        simp only [parse_tokens]
        split
        · exact Or.inr rfl
        · exact ih _ _ _ _ ht
      | none =>
        simp only [parse_tokens]
        repeat' split
        all_goals first | exact Or.inl rfl | exact Or.inr rfl | exact ih _ _ _ _ ht

/-- C1 amended: the CLI registers no `--yes` flag — an invocation whose
arguments contain `--yes` never reaches the workflow: either an also-present
(and reached) auto-registered `-h`/`--help` prints help and the program exits
with status 0, or argument parsing fails and it exits with status 2; in both
cases no step runs — and the destroy command is executed only after an
affirmative answer to the interactive confirmation, with no non-interactive
override. -/
theorem no_yes_flag_always_confirm :
    (∀ (w : World) (argv : List String), "--yes" ∈ argv →
      main_run w argv = ⟨[Ev.info "help"], w.initEnv, some 0⟩ ∨
      main_run w argv = ⟨[Ev.info "usage error"], w.initEnv, some 2⟩) ∧
    (∀ (w : World) (argv : List String) (a : Args), parse_args argv = ParseResult.ok a →
      a.action = "destroy" →
      Ev.exec true (destroy_cmd (relative_json_path w.cwd a))
        (some (composition_dir w.cwd a)) ∈ (main_run w argv).trace →
      is_affirmative w.response = true) := by
  constructor
  · intro w argv hmem
    have hargv : argv ≠ [] := by
      intro he
      rw [he] at hmem
      simp at hmem
    rcases parse_tokens_yes argv initArgs false none false hmem with hp | hp
    · left
      unfold main_run
      rw [if_neg hargv]
      rw [show parse_args argv = ParseResult.help from hp]
    · right
      unfold main_run
      rw [if_neg hargv]
      rw [show parse_args argv = ParseResult.err from hp]
  · intro w argv a hp ha hmem
    cases haff : is_affirmative w.response with
    | true => rfl
    | false =>
      exfalso
      have hargv : argv ≠ [] := by
        intro he
        rw [he] at hp
        rw [show parse_args [] = ParseResult.err from rfl] at hp
        exact ParseResult.noConfusion hp
      have hmr : main_run w argv = execSteps w w.initEnv (main_steps w a) := by
        unfold main_run
        rw [if_neg hargv, hp]
      rw [hmr] at hmem
      have hms : main_steps w a =
          [Step.cmd (merge_cmd w.cwd a) none,
           Step.mirror (composition_dir w.cwd a),
           Step.cmd (init_backend_cmd w.cwd a) (some (composition_dir w.cwd a)),
           Step.confirmDestroy a.env,
           Step.loadenv,
           Step.cmd init_no_backend_cmd (some (composition_dir w.cwd a)),
           Step.cmd (destroy_cmd (relative_json_path w.cwd a))
             (some (composition_dir w.cwd a))] := by
        simp [main_steps, terraform_workflow_steps, ha]
      rw [hms] at hmem
      by_cases h1 : w.exitCode (merge_cmd w.cwd a) none = 0
      · by_cases h2 : w.exitCode (init_backend_cmd w.cwd a)
            (some (composition_dir w.cwd a)) = 0
        · simp only [execSteps, h1, h2, haff, setup_terraform_provider_mirror,
            reduceIte, Bool.false_eq_true, if_false, List.mem_cons] at hmem
          rcases hmem with he | he | he | he | he | he
          · injection he with hb hc hd
            exact Option.noConfusion hd
          · exact Ev.noConfusion he
          · injection he with hb hc hd
            exact destroy_ne_initb _ _ _ hc
          · exact Ev.noConfusion he
          · exact Ev.noConfusion he
          · simp at he
        · simp only [execSteps, h1, h2, setup_terraform_provider_mirror,
              reduceIte, List.mem_cons] at hmem
          rcases hmem with he | he | he | he
          · injection he with hb hc hd
            exact Option.noConfusion hd
          · exact Ev.noConfusion he
          · injection he with hb hc hd
            exact destroy_ne_initb _ _ _ hc
          · simp at he
      · simp only [execSteps, h1, setup_terraform_provider_mirror, reduceIte,
          List.mem_cons] at hmem
        rcases hmem with he | he
        · injection he with hb hc hd
          exact Option.noConfusion hd
        · simp at he

theorem no_yes_flag_always_confirm_witness :
    (main_run wOk ["plan", "--yes"] = ⟨[Ev.info "help"], wOk.initEnv, some 0⟩ ∨
     main_run wOk ["plan", "--yes"] = ⟨[Ev.info "usage error"], wOk.initEnv, some 2⟩) ∧
    is_affirmative wYes.response = true :=
  ⟨no_yes_flag_always_confirm.1 wOk ["plan", "--yes"] (by decide),
   no_yes_flag_always_confirm.2 wYes ["destroy"] argsDestroyDefault (by decide) rfl
     (by decide)⟩


/-! ### Claim C4 -/

/-- C4 counterexample: in a destroy run declined by the operator (`no`), the
program does exit cleanly with status 0 — but not with zero mutating steps:
the YAML merge command, the provider-mirror file write and the backend
`terraform init` have all executed before the prompt. -/
theorem destroy_decline_counterexample :
    (main_run wOk ["destroy"]).exit = some 0 ∧
    Ev.exec true (merge_cmd "/root" argsDestroyDefault) none ∈ (main_run wOk ["destroy"]).trace ∧
    Ev.fileWrite (terraformrc_path "/root") (terraformrc_content "/root") ∈
      (main_run wOk ["destroy"]).trace ∧
    Ev.exec true (init_backend_cmd "/root" argsDestroyDefault)
      (some (composition_dir "/root" argsDestroyDefault)) ∈ (main_run wOk ["destroy"]).trace := by
  exact ⟨by decide, by decide, by decide, by decide⟩

/-- C4 amended: a declined destroy run exits cleanly with status 0 and never
reaches the remote-mutating destroy command, but by that time three
local-state-mutating steps — the variable merge, the provider-mirror write
and the backend init — have already run; the full run is exactly merge,
mirror write, backend init, prompt, cancellation notice. -/
theorem destroy_decline_state (w : World) (argv : List String) (a : Args)
    (hp : parse_args argv = ParseResult.ok a) (ha : a.action = "destroy")
    (h0 : ∀ c d, w.exitCode c d = 0) (hno : is_affirmative w.response = false) :
    main_run w argv =
      ⟨[Ev.exec true (merge_cmd w.cwd a) none,
        Ev.fileWrite (terraformrc_path w.cwd) (terraformrc_content w.cwd),
        Ev.exec true (init_backend_cmd w.cwd a) (some (composition_dir w.cwd a)),
        Ev.prompt confirm_prompt_msg,
        Ev.info "Destroy action canceled."], w.initEnv, some 0⟩ ∧
    Ev.exec true (destroy_cmd (relative_json_path w.cwd a))
      (some (composition_dir w.cwd a)) ∉ (main_run w argv).trace := by
  have hargv : argv ≠ [] := by
    intro he
    rw [he] at hp
    rw [show parse_args [] = ParseResult.err from rfl] at hp
    exact ParseResult.noConfusion hp
  have hmr : main_run w argv = execSteps w w.initEnv (main_steps w a) := by
    unfold main_run
    rw [if_neg hargv, hp]
  have hms : main_steps w a =
      [Step.cmd (merge_cmd w.cwd a) none,
       Step.mirror (composition_dir w.cwd a),
       Step.cmd (init_backend_cmd w.cwd a) (some (composition_dir w.cwd a)),
       Step.confirmDestroy a.env,
       Step.loadenv,
       Step.cmd init_no_backend_cmd (some (composition_dir w.cwd a)),
       Step.cmd (destroy_cmd (relative_json_path w.cwd a))
         (some (composition_dir w.cwd a))] := by
    simp [main_steps, terraform_workflow_steps, ha]
  have hrun : main_run w argv =
      ⟨[Ev.exec true (merge_cmd w.cwd a) none,
        Ev.fileWrite (terraformrc_path w.cwd) (terraformrc_content w.cwd),
        Ev.exec true (init_backend_cmd w.cwd a) (some (composition_dir w.cwd a)),
        Ev.prompt confirm_prompt_msg,
        Ev.info "Destroy action canceled."], w.initEnv, some 0⟩ := by
    rw [hmr, hms]
    simp [execSteps, h0, hno, setup_terraform_provider_mirror]
  refine ⟨hrun, ?_⟩
  rw [hrun]
  intro hmem
  simp only [List.mem_cons] at hmem
  rcases hmem with he | he | he | he | he | he
  · injection he with hb hc hd
    exact Option.noConfusion hd
  · exact Ev.noConfusion he
  · injection he with hb hc hd
    exact destroy_ne_initb _ _ _ hc
  · exact Ev.noConfusion he
  · exact Ev.noConfusion he
  · simp at he

theorem destroy_decline_state_witness :
    main_run wOk ["destroy"] =
      ⟨[Ev.exec true (merge_cmd wOk.cwd argsDestroyDefault) none,
        Ev.fileWrite (terraformrc_path wOk.cwd) (terraformrc_content wOk.cwd),
        Ev.exec true (init_backend_cmd wOk.cwd argsDestroyDefault)
          (some (composition_dir wOk.cwd argsDestroyDefault)),
        Ev.prompt confirm_prompt_msg,
        Ev.info "Destroy action canceled."], wOk.initEnv, some 0⟩ ∧
    Ev.exec true (destroy_cmd (relative_json_path wOk.cwd argsDestroyDefault))
      (some (composition_dir wOk.cwd argsDestroyDefault)) ∉ (main_run wOk ["destroy"]).trace :=
  destroy_decline_state wOk ["destroy"] argsDestroyDefault (by decide) rfl
    (fun c d => rfl) (by decide)


/-! ### Claim C5 -/

theorem plan_cmd_out (tf comp : String) (vars : List (String × String)) :
    ∃ pre, plan_cmd tf comp vars = pre ++ (" -out=" ++ PRECHECK_PLAN) := by
  cases hl : lookupEnv vars "admin_public_key" with
  | none =>
    refine ⟨"terraform plan -var-file=" ++ (tf ++ ""), ?_⟩
    apply String.ext
    simp [plan_cmd, hl, String.data_append, List.append_assoc]
  | some v =>
    by_cases hc : hasSub "vm-stack" comp && v != ""
    · refine ⟨"terraform plan -var-file=" ++
        (tf ++ (" -var=\"admin_public_key=" ++ (v ++ "\""))), ?_⟩
      apply String.ext
      simp [plan_cmd, hl, hc, String.data_append, List.append_assoc]
    · refine ⟨"terraform plan -var-file=" ++ (tf ++ ""), ?_⟩
      apply String.ext
      simp [plan_cmd, hl, hc, String.data_append, List.append_assoc]

/-- C5: whenever the `terraform apply` step of an `apply` run executes, the
`terraform plan` step that writes the plan artifact executed earlier in the
same run's trace; the plan command ends in `-out=precheck.tfplan` and the
apply command consumes exactly `precheck.tfplan` — so the applied artifact is
the one regenerated in this invocation, never a stale one. -/
theorem apply_consumes_fresh_plan (w : World) (argv : List String) (a : Args)
    (hp : parse_args argv = ParseResult.ok a) (ha : a.action = "apply")
    (hmem : Ev.exec true apply_cmd (some (composition_dir w.cwd a)) ∈ (main_run w argv).trace) :
    (∃ t1 t2, (main_run w argv).trace =
        t1 ++ Ev.exec true (plan_cmd (relative_json_path w.cwd a) (composition_dir w.cwd a)
          (all_vars w)) (some (composition_dir w.cwd a)) :: t2 ∧
        Ev.exec true apply_cmd (some (composition_dir w.cwd a)) ∈ t2) ∧
    (∃ pre, plan_cmd (relative_json_path w.cwd a) (composition_dir w.cwd a) (all_vars w) =
        pre ++ (" -out=" ++ PRECHECK_PLAN)) ∧
    apply_cmd = "terraform apply -auto-approve " ++ PRECHECK_PLAN := by
  have hargv : argv ≠ [] := by
    intro he
    rw [he] at hp
    rw [show parse_args [] = ParseResult.err from rfl] at hp
    exact ParseResult.noConfusion hp
  have hmr : main_run w argv = execSteps w w.initEnv (main_steps w a) := by
    unfold main_run
    rw [if_neg hargv, hp]
  have hms : main_steps w a =
      [Step.cmd (merge_cmd w.cwd a) none,
       Step.mirror (composition_dir w.cwd a),
       Step.loadenv,
       Step.cmd init_no_backend_cmd (some (composition_dir w.cwd a)),
       Step.cmd validate_cmd (some (composition_dir w.cwd a)),
       Step.cmd (plan_cmd (relative_json_path w.cwd a) (composition_dir w.cwd a)
         (all_vars w)) (some (composition_dir w.cwd a)),
       Step.cmd show_cmd (some (composition_dir w.cwd a)),
       Step.cmd (init_backend_cmd w.cwd a) (some (composition_dir w.cwd a)),
       Step.cmd apply_cmd (some (composition_dir w.cwd a))] := by
    simp [main_steps, run_plan_steps, terraform_workflow_steps, ha]
  rw [hmr, hms] at hmem ⊢
  refine ⟨?_, plan_cmd_out _ _ _, rfl⟩
  by_cases h1 : w.exitCode (merge_cmd w.cwd a) none = 0
  case neg =>
    exfalso
    simp only [execSteps, h1, setup_terraform_provider_mirror, reduceIte,
      List.mem_cons, List.not_mem_nil, or_false] at hmem
    injection hmem with hb hc hd
    exact Option.noConfusion hd
  by_cases h2 : w.exitCode init_no_backend_cmd (some (composition_dir w.cwd a)) = 0
  case neg =>
    exfalso
    simp only [execSteps, h1, h2, setup_terraform_provider_mirror, reduceIte,
      List.mem_cons, List.mem_append, List.not_mem_nil, or_false] at hmem
    rcases hmem with he | he | he | he
    · injection he with hb hc hd
      exact Option.noConfusion hd
    · exact Ev.noConfusion he
    · exact absurd he (load_no_exec _ _ _ _ _ _)
    · injection he with hb hc hd
      exact apply_ne_initnb hc
  by_cases h3 : w.exitCode validate_cmd (some (composition_dir w.cwd a)) = 0
  case neg =>
    exfalso
    simp only [execSteps, h1, h2, h3, setup_terraform_provider_mirror, reduceIte,
      List.mem_cons, List.mem_append, List.not_mem_nil, or_false] at hmem
    rcases hmem with he | he | he | he | he
    · injection he with hb hc hd
      exact Option.noConfusion hd
    · exact Ev.noConfusion he
    · exact absurd he (load_no_exec _ _ _ _ _ _)
    · injection he with hb hc hd
      exact apply_ne_initnb hc
    · injection he with hb hc hd
      exact apply_ne_validate hc
  by_cases h4 : w.exitCode (plan_cmd (relative_json_path w.cwd a) (composition_dir w.cwd a)
      (all_vars w)) (some (composition_dir w.cwd a)) = 0
  case neg =>
    exfalso
    simp only [execSteps, h1, h2, h3, h4, setup_terraform_provider_mirror, reduceIte,
      List.mem_cons, List.mem_append, List.not_mem_nil, or_false] at hmem
    rcases hmem with he | he | he | he | he | he
    · injection he with hb hc hd
      exact Option.noConfusion hd
    · exact Ev.noConfusion he
    · exact absurd he (load_no_exec _ _ _ _ _ _)
    · injection he with hb hc hd
      exact apply_ne_initnb hc
    · injection he with hb hc hd
      exact apply_ne_validate hc
    · injection he with hb hc hd
      exact apply_ne_plan _ _ _ hc
  by_cases h5 : w.exitCode show_cmd (some (composition_dir w.cwd a)) = 0
  case neg =>
    exfalso
    simp only [execSteps, h1, h2, h3, h4, h5, setup_terraform_provider_mirror, reduceIte,
      List.mem_cons, List.mem_append, List.not_mem_nil, or_false] at hmem
    rcases hmem with he | he | he | he | he | he | he
    · injection he with hb hc hd
      exact Option.noConfusion hd
    · exact Ev.noConfusion he
    · exact absurd he (load_no_exec _ _ _ _ _ _)
    · injection he with hb hc hd
      exact apply_ne_initnb hc
    · injection he with hb hc hd
      exact apply_ne_validate hc
    · injection he with hb hc hd
      exact apply_ne_plan _ _ _ hc
    · injection he with hb hc hd
      exact apply_ne_show hc
  by_cases h6 : w.exitCode (init_backend_cmd w.cwd a) (some (composition_dir w.cwd a)) = 0
  case neg =>
    exfalso
    simp only [execSteps, h1, h2, h3, h4, h5, h6, setup_terraform_provider_mirror, reduceIte,
      List.mem_cons, List.mem_append, List.not_mem_nil, or_false] at hmem
    rcases hmem with he | he | he | he | he | he | he | he
    · injection he with hb hc hd
      exact Option.noConfusion hd
    · exact Ev.noConfusion he
    · exact absurd he (load_no_exec _ _ _ _ _ _)
    · injection he with hb hc hd
      exact apply_ne_initnb hc
    · injection he with hb hc hd
      exact apply_ne_validate hc
    · injection he with hb hc hd
      exact apply_ne_plan _ _ _ hc
    · injection he with hb hc hd
      exact apply_ne_show hc
    · injection he with hb hc hd
      exact apply_ne_initb _ _ hc
  refine ⟨Ev.exec true (merge_cmd w.cwd a) none ::
      Ev.fileWrite (terraformrc_path w.cwd) (terraformrc_content w.cwd) ::
      ((load_azure_env w.envFileExists w.envFileLines w.initEnv).2 ++
        [Ev.exec true init_no_backend_cmd (some (composition_dir w.cwd a)),
         Ev.exec true validate_cmd (some (composition_dir w.cwd a))]),
    [Ev.exec true show_cmd (some (composition_dir w.cwd a)),
     Ev.exec true (init_backend_cmd w.cwd a) (some (composition_dir w.cwd a)),
     Ev.exec true apply_cmd (some (composition_dir w.cwd a))], ?_, by simp⟩
  by_cases h7 : w.exitCode apply_cmd (some (composition_dir w.cwd a)) = 0 <;>
    simp [execSteps, h1, h2, h3, h4, h5, h6, h7, setup_terraform_provider_mirror]

def argsApplyDefault : Args := ⟨"apply", "ovr-app-infra", "azure", "dev"⟩

theorem apply_consumes_fresh_plan_witness :
    (∃ t1 t2, (main_run wOk ["apply"]).trace =
        t1 ++ Ev.exec true (plan_cmd (relative_json_path wOk.cwd argsApplyDefault)
          (composition_dir wOk.cwd argsApplyDefault) (all_vars wOk))
          (some (composition_dir wOk.cwd argsApplyDefault)) :: t2 ∧
        Ev.exec true apply_cmd (some (composition_dir wOk.cwd argsApplyDefault)) ∈ t2) ∧
    (∃ pre, plan_cmd (relative_json_path wOk.cwd argsApplyDefault)
        (composition_dir wOk.cwd argsApplyDefault) (all_vars wOk) =
        pre ++ (" -out=" ++ PRECHECK_PLAN)) ∧
    apply_cmd = "terraform apply -auto-approve " ++ PRECHECK_PLAN :=
  apply_consumes_fresh_plan wOk ["apply"] argsApplyDefault (by decide) rfl (by decide)

/-! ### Claim C3 -/

/-- A fully successful world whose merged tfvars carry an SSH public key. -/
def wKey : World :=
  { cwd := "/root", initEnv := [], exitCode := fun _ _ => 0,
    envFileExists := false, envFileLines := [], tfvarsJsonExists := true,
    tfvarsVars := [("admin_public_key", "ssh-rsa AAAAB3Nza")], response := "no" }

def argsVmStack : Args := ⟨"plan", "ovr-app-infra", "vm-stack", "dev"⟩

/-- C3 counterexample: for a `vm-stack` composition the plan command — run as
a single shell-interpreted string (`shell` flag of the event is `true`) —
carries the sensitive `admin_public_key` value from the merged configuration
interpolated into that shell string. -/
theorem shell_injection_counterexample :
    Ev.exec true (plan_cmd (relative_json_path "/root" argsVmStack)
        (composition_dir "/root" argsVmStack) (all_vars wKey))
      (some (composition_dir "/root" argsVmStack)) ∈
        (main_run wKey ["plan", "--cloud", "vm-stack"]).trace ∧
    hasSub "admin_public_key=ssh-rsa AAAAB3Nza"
      (plan_cmd (relative_json_path "/root" argsVmStack)
        (composition_dir "/root" argsVmStack) (all_vars wKey)) = true := by
  exact ⟨by decide, by decide⟩

/-- C3 amended: every external command of every run is executed through the
shell as a single command string (the `shell` flag of every execution event is
`true`, mirroring `shell=True` in `run_command`), and for a `vm-stack`
composition with a non-empty `admin_public_key` the key value is interpolated
into the shell-parsed plan command string. -/
theorem all_commands_shell_interpolated :
    (∀ (w : World) (argv : List String) (b : Bool) (c : String) (d : Option String),
      Ev.exec b c d ∈ (main_run w argv).trace → b = true) ∧
    (∀ (tf comp v : String) (vars : List (String × String)),
      lookupEnv vars "admin_public_key" = some v → hasSub "vm-stack" comp = true →
      v ≠ "" →
      plan_cmd tf comp vars =
        "terraform plan -var-file=" ++
          (tf ++ ((" -var=\"admin_public_key=" ++ (v ++ "\"")) ++
            (" -out=" ++ PRECHECK_PLAN)))) := by
  constructor
  · intro w argv b c d hmem
    by_cases hargv : argv = []
    · rw [hargv] at hmem
      simp [main_run] at hmem
    · cases hpp : parse_args argv with
      | help =>
        have hmr : main_run w argv = ⟨[Ev.info "help"], w.initEnv, some 0⟩ := by
          unfold main_run
          rw [if_neg hargv, hpp]
        rw [hmr] at hmem
        simp at hmem
      | err =>
        have hmr : main_run w argv = ⟨[Ev.info "usage error"], w.initEnv, some 2⟩ := by
          unfold main_run
          rw [if_neg hargv, hpp]
        rw [hmr] at hmem
        simp at hmem
      | ok a =>
        have hmr : main_run w argv = execSteps w w.initEnv (main_steps w a) := by
          unfold main_run
          rw [if_neg hargv, hpp]
        rw [hmr] at hmem
        exact (execSteps_exec_inv w b c d _ _ hmem).1
  · intro tf comp v vars hl hsub hv
    have hcond : (hasSub "vm-stack" comp && v != "") = true := by
      simp [hsub, hv]
    simp [plan_cmd, hl, hcond]

theorem all_commands_shell_interpolated_witness :
    (true = true) ∧
    plan_cmd "../../../all.tfvars.json" (composition_dir "/root" argsVmStack)
        [("admin_public_key", "k")] =
      "terraform plan -var-file=" ++
        ("../../../all.tfvars.json" ++ ((" -var=\"admin_public_key=" ++ ("k" ++ "\"")) ++
          (" -out=" ++ PRECHECK_PLAN))) :=
  ⟨all_commands_shell_interpolated.1 wKey ["plan", "--cloud", "vm-stack"] true
      (merge_cmd "/root" argsVmStack) none (by decide),
   all_commands_shell_interpolated.2 "../../../all.tfvars.json"
      (composition_dir "/root" argsVmStack) "k" [("admin_public_key", "k")] rfl
      (by decide) (by decide)⟩

end AzureIaC
